import Mathlib

/-!
# TraceJS core: shallow embedding and verification

A shallow embedding of the TraceJS fingerprinting core
(`src/utils/cache.ts`, `src/utils/entropy.ts`,
`src/services/ConsentManager.ts`, `src/services/BehaviorFingerprint.ts`,
`src/index.ts`) together with proofs of the specification's testable
properties.

Host APIs (`localStorage`, `Date.now`, `JSON.parse`/`JSON.stringify`,
`crypto.subtle` hashing, `window.location.origin`) are modelled as
explicit state, time parameters, parse-outcome data, and function
oracles; everything written in this repository is translated
construct-by-construct from the TypeScript source.
-/

namespace Trace

/-! ## Persistent cache (`src/utils/cache.ts`)

`localStorage` is a string-keyed store.  A stored string, when read back,
is in exactly one of three conditions relevant to `getFromCache`:
it parses as the `CachedData` shape `{data, timestamp}` written by
`saveToCache`; it fails `JSON.parse` altogether (the `catch` branch);
or it parses but lacks a numeric `timestamp` (then `now - timestamp`
is `NaN`, the validity comparison is false, and the entry is removed).
We model the stored string by that outcome. -/

/-- The parse outcome of one `localStorage` slot, as seen by
`getFromCache<T>`. -/
inductive StoredCell (T : Type) where
  /-- A well-formed `{data, timestamp}` JSON entry, as written by
  `saveToCache`. -/
  | entry (data : T) (timestamp : Int)
  /-- A string on which `JSON.parse` throws; `getFromCache` lands in its
  `catch` branch. -/
  | unparsable
  /-- A string that parses but is not of the `CachedData` shape (no
  numeric `timestamp`); the `NaN` comparison sends `getFromCache` to the
  removal branch. -/
  | wrongShape
  deriving DecidableEq, Repr

/-- The `localStorage` key/value store, restricted to the slots the
library touches. -/
abbrev Storage (T : Type) : Type := List (String × StoredCell T)

/-- The `localStorage.getItem`: first binding for a key, if any. -/
def lookupStored {T : Type} : Storage T → String → Option (StoredCell T)
  | [], _ => none
  | (k, c) :: rest, key => if k = key then some c else lookupStored rest key

/-- The `localStorage.removeItem`. -/
def removeItem {T : Type} (key : String) (st : Storage T) : Storage T :=
  st.filter (fun kv => kv.1 ≠ key)

/-- The `localStorage.setItem`: overwrites any prior entry unconditionally. -/
def setItem {T : Type} (key : String) (c : StoredCell T) (st : Storage T) :
    Storage T :=
  (key, c) :: removeItem key st

/-- The `DEFAULT_CACHE_VALIDITY = 30 * 24 * 60 * 60 * 1000` (30 days in
milliseconds). -/
def DEFAULT_CACHE_VALIDITY : Int := 30 * 24 * 60 * 60 * 1000

/-- The `saveToCache(key, data)`: wraps the value with the current time
(`Date.now()`, the `now` parameter) and writes it as the sole
representation under `key`. -/
def saveToCache {T : Type} (key : String) (data : T) (now : Int)
    (st : Storage T) : Storage T :=
  setItem key (StoredCell.entry data now) st

/-- The `getFromCache(key, validityPeriod)`: returns the stored value if
`now - timestamp < validityPeriod`, else removes the entry and returns
`null`; a string that fails to parse is caught and yields `null` with
the store untouched.  Returns the value read together with the store
after the call. -/
def getFromCache {T : Type} (key : String) (validityPeriod : Int)
    (now : Int) (st : Storage T) : Option T × Storage T :=
  match lookupStored st key with
  | none => (none, st)
  | some (StoredCell.entry d ts) =>
      if now - ts < validityPeriod then (some d, st)
      else (none, removeItem key st)
  | some StoredCell.unparsable => (none, st)
  | some StoredCell.wrongShape => (none, removeItem key st)

/-- One step of the origin hash:
`hash = (hash << 5) - hash + origin.charCodeAt(i); hash |= 0`.
JavaScript `<<` and `|0` wrap to a signed 32-bit integer. -/
def toInt32 (n : Int) : Int := (n + 2 ^ 31) % 2 ^ 32 - 2 ^ 31

/-- The loop body of `generateCacheKey`'s origin hash. -/
def hashStep (h : Int) (c : Char) : Int :=
  toInt32 (toInt32 (h * 32) - h + c.toNat)

/-- The full origin hash computed by `generateCacheKey`. -/
def originHash (origin : String) : Int :=
  origin.toList.foldl hashStep 0

/-- The `generateCacheKey(prefix)`: `` `tracejs_${prefix}_${hash}` `` where
`hash` is the 32-bit rolling hash of `window.location.origin` (the
`origin` parameter). -/
def generateCacheKey (pre : String) (origin : String) : String :=
  "tracejs_" ++ pre ++ "_" ++ toString (originHash origin)

/-! ## Entropy estimator (`src/utils/entropy.ts`)

`calculateStringEntropy` is Shannon entropy over character frequencies;
JavaScript's `Math.log2` float arithmetic is idealised as real
arithmetic.  In `estimateFingerprintEntropy`, each `if (characteristics.X)`
branch tests JS truthiness of the attribute string, modelled as a `Bool`
(present and non-empty); the battery branch additionally runs
`JSON.parse` on the battery string, whose outcome (a host API result) is
modelled by `BatteryValue`. -/

/-- Shannon entropy of a string over its character frequencies
(`calculateStringEntropy`), in bits per symbol. -/
noncomputable def calculateStringEntropy (s : String) : ℝ :=
  -(∑ c ∈ s.toList.toFinset,
      ((s.toList.count c : ℝ) / s.toList.length)
        * Real.logb 2 ((s.toList.count c : ℝ) / s.toList.length))

/-- Outcome of `JSON.parse(characteristics.battery)` inside
`estimateFingerprintEntropy`. -/
inductive BatteryValue where
  /-- The `JSON.parse` throws on the battery string (for instance the string
  consisting of a single opening brace). -/
  | unparsable
  /-- Parses, but `batteryData.level` is `undefined`. -/
  | noLevel
  /-- Parses with a defined `level`. -/
  | withLevel
  deriving DecidableEq, Repr

/-- The attribute categories `estimateFingerprintEntropy` inspects.
A `Bool` field is the JS truthiness of the corresponding attribute
string (present and non-empty); `battery` is `none` when absent or
empty, otherwise its parse outcome. -/
structure FingerprintCharacteristics where
  battery : Option BatteryValue
  screen : Bool
  canvas : Bool
  webglParams : Bool
  audio : Bool
  userAgent : Bool
  deriving DecidableEq, Repr

/-- The `featureEntropy` accumulation of `estimateFingerprintEntropy`,
branch by branch: battery adds 2, then 2 more when a `level` is defined
but only 1 more when `JSON.parse` throws (the `catch (e)` branch);
screen 6; canvas 12; WebGL 12; audio 6; user agent 8. -/
def featureEntropy (c : FingerprintCharacteristics) : ℚ :=
  (match c.battery with
    | none => 0
    | some BatteryValue.unparsable => 2 + 1
    | some BatteryValue.noLevel => 2
    | some BatteryValue.withLevel => 2 + 2)
  + (if c.screen then 6 else 0)
  + (if c.canvas then 12 else 0)
  + (if c.webglParams then 12 else 0)
  + (if c.audio then 6 else 0)
  + (if c.userAgent then 8 else 0)

/-- The `estimateFingerprintEntropy(fingerprint, characteristics)`:
`Math.min(128, baseEntropy * 8 + featureEntropy)`. -/
noncomputable def estimateFingerprintEntropy (fingerprint : String)
    (c : FingerprintCharacteristics) : ℝ :=
  min 128 (calculateStringEntropy fingerprint * 8 + (featureEntropy c : ℝ))

/-- Modelled from the spec's words (§4.5): per-feature weights
"battery: 2, +2 more if a level is present; screen: 6; canvas: 12;
GPU/WebGL: 12; audio: 6; user-agent: 8".  An unparsable battery string
has no level present, so it contributes 2 under this reading. -/
def specFeatureWeights (c : FingerprintCharacteristics) : ℚ :=
  (if c.battery.isSome then
    2 + (if c.battery = some BatteryValue.withLevel then 2 else 0)
   else 0)
  + (if c.screen then 6 else 0)
  + (if c.canvas then 12 else 0)
  + (if c.webglParams then 12 else 0)
  + (if c.audio then 6 else 0)
  + (if c.userAgent then 8 else 0)

/-- The amended per-feature weights: as `specFeatureWeights`, except an
unparsable battery string contributes 1 more on top of the flat 2. -/
def specFeatureWeightsAmended (c : FingerprintCharacteristics) : ℚ :=
  (if c.battery.isSome then
    2 + (if c.battery = some BatteryValue.withLevel then 2 else 0)
      + (if c.battery = some BatteryValue.unparsable then 1 else 0)
   else 0)
  + (if c.screen then 6 else 0)
  + (if c.canvas then 12 else 0)
  + (if c.webglParams then 12 else 0)
  + (if c.audio then 6 else 0)
  + (if c.userAgent then 8 else 0)

/-! ## Consent manager (`src/services/ConsentManager.ts`)

`ConsentOptions` here is the record after the constructor's spread-merge
of defaults and user options; `localStorage` and `Date.now()` appear as
explicit parameters (`saved`, `now`), and region auto-detection is the
`detectedRegion` parameter of `initialize`. -/

/-- The `ConsentCategory` from `src/interfaces/ConsentOptions.ts`. -/
inductive ConsentCategory where
  | essential | functionality | analytics | advertising | personalization
  deriving DecidableEq, Repr

/-- The `ConsentRegion` from `src/interfaces/ConsentOptions.ts`. -/
inductive ConsentRegion where
  | gdpr | ccpa | lgpd | pipl | pdpa | cdpa | ctdpa | global
  deriving DecidableEq, Repr

/-- The `ConsentState`: per-category boolean grants plus `lastUpdated` and
detected `region`. -/
structure ConsentState where
  essential : Bool
  functionality : Bool
  analytics : Bool
  advertising : Bool
  personalization : Bool
  lastUpdated : Int
  region : ConsentRegion
  deriving DecidableEq, Repr

/-- The `this.consentState[category]` read access. -/
def ConsentState.getCat (s : ConsentState) : ConsentCategory → Bool
  | ConsentCategory.essential => s.essential
  | ConsentCategory.functionality => s.functionality
  | ConsentCategory.analytics => s.analytics
  | ConsentCategory.advertising => s.advertising
  | ConsentCategory.personalization => s.personalization

/-- The `this.consentState[category] = b` write access. -/
def ConsentState.setCat (s : ConsentState) :
    ConsentCategory → Bool → ConsentState
  | ConsentCategory.essential, b => { s with essential := b }
  | ConsentCategory.functionality, b => { s with functionality := b }
  | ConsentCategory.analytics, b => { s with analytics := b }
  | ConsentCategory.advertising, b => { s with advertising := b }
  | ConsentCategory.personalization, b => { s with personalization := b }

/-- The `allCategories` array of `applyRegionalDefaults`. -/
def allCategories : List ConsentCategory :=
  [ConsentCategory.essential, ConsentCategory.functionality,
   ConsentCategory.analytics, ConsentCategory.advertising,
   ConsentCategory.personalization]

/-- The constructor-merged `ConsentOptions`.
`requireExplicitConsent` is the per-region lookup
`this.options.requireExplicitConsent?.[region] ?? false` collapsed to a
function (a plain boolean option is the constant function). -/
structure ConsentOptions where
  requireExplicitConsent : ConsentRegion → Bool
  requiredCategories : List ConsentCategory
  categoryMapping : String → Option ConsentCategory
  autoDetectRegion : Bool
  defaultRegion : ConsentRegion
  persistConsent : Bool

/-- The default `categoryMapping` from the constructor. -/
def defaultCategoryMapping (method : String) : Option ConsentCategory :=
  if method = "battery" then some ConsentCategory.functionality
  else if method = "screen" then some ConsentCategory.functionality
  else if method = "canvas" then some ConsentCategory.analytics
  else if method = "audio" then some ConsentCategory.analytics
  else if method = "behavior" then some ConsentCategory.personalization
  else if method = "geolocation" then some ConsentCategory.personalization
  else none

/-- The default `requireExplicitConsent` map from the constructor. -/
def defaultRequireExplicitConsent : ConsentRegion → Bool
  | ConsentRegion.gdpr => true
  | ConsentRegion.lgpd => true
  | ConsentRegion.pipl => true
  | ConsentRegion.pdpa => true
  | ConsentRegion.cdpa => true
  | ConsentRegion.ctdpa => true
  | ConsentRegion.ccpa => false
  | ConsentRegion.global => false

/-- The default-configuration options record (the constructor's
defaults with no user overrides). -/
def defaultConsentOptions : ConsentOptions :=
  { requireExplicitConsent := defaultRequireExplicitConsent
    requiredCategories := [ConsentCategory.essential]
    categoryMapping := defaultCategoryMapping
    autoDetectRegion := true
    defaultRegion := ConsentRegion.global
    persistConsent := true }

/-- The in-memory `ConsentManager` fields. -/
structure ConsentManager where
  options : ConsentOptions
  consentState : ConsentState
  initialized : Bool

/-- The constructor's initial state (`essential: true`, everything else
`false`, `region` from options, `lastUpdated = Date.now()`). -/
def ConsentManager.construct (opts : ConsentOptions) (now : Int) :
    ConsentManager :=
  { options := opts
    initialized := false
    consentState :=
      { essential := true
        functionality := false
        analytics := false
        advertising := false
        personalization := false
        lastUpdated := now
        region := opts.defaultRegion } }

/-- The first pass of `applyRegionalDefaults()`: force every required
category to `true`. -/
def applyRequired (opts : ConsentOptions) (s : ConsentState) : ConsentState :=
  opts.requiredCategories.foldl (fun acc c => acc.setCat c true) s

/-- The `applyRegionalDefaults()`: force required categories to `true`, then,
when the region requires explicit consent, force every non-required
category to `false`. -/
def applyRegionalDefaults (opts : ConsentOptions) (s : ConsentState) :
    ConsentState :=
  if opts.requireExplicitConsent (applyRequired opts s).region then
    allCategories.foldl
      (fun acc c =>
        if c ∈ opts.requiredCategories then acc else acc.setCat c false)
      (applyRequired opts s)
  else applyRequired opts s

/-- The `hasConsent(method)`: auto-initialises with regional defaults when
needed, then: no mapped category ⇒ `true`; required category ⇒ `true`;
otherwise the current grant.  Returns the decision and the manager after
the call (the auto-initialisation mutates it). -/
def ConsentManager.hasConsent (m : ConsentManager) (method : String) :
    Bool × ConsentManager :=
  let m1 :=
    if m.initialized then m
    else { m with
           initialized := true
           consentState := applyRegionalDefaults m.options m.consentState }
  match m1.options.categoryMapping method with
  | none => (true, m1)
  | some cat =>
      if cat ∈ m1.options.requiredCategories then (true, m1)
      else (m1.consentState.getCat cat, m1)

/-- The `updateConsent(category, granted)`: refuses to revoke a required
category; otherwise writes the grant and stamps `lastUpdated = now`.
(Persistence and the change callback write the state elsewhere without
altering it.) -/
def ConsentManager.updateConsent (m : ConsentManager)
    (category : ConsentCategory) (granted : Bool) (now : Int) :
    ConsentManager :=
  if category ∈ m.options.requiredCategories ∧ granted = false then m
  else
    { m with consentState :=
        { m.consentState.setCat category granted with lastUpdated := now } }

/-- The `updateMultipleConsent(categories)`: the loop body per entry —
skip required-category revocations, write only on a changed value,
tracking the `changed` flag. -/
def updateMultipleStep (required : List ConsentCategory)
    (acc : ConsentState × Bool) (entry : ConsentCategory × Bool) :
    ConsentState × Bool :=
  if entry.1 ∈ required ∧ entry.2 = false then acc
  else if acc.1.getCat entry.1 ≠ entry.2 then
    (acc.1.setCat entry.1 entry.2, true)
  else acc

/-- The `updateMultipleConsent(categories)`: fold the loop over the entries;
stamp `lastUpdated` only when something changed. -/
def ConsentManager.updateMultipleConsent (m : ConsentManager)
    (categories : List (ConsentCategory × Bool)) (now : Int) :
    ConsentManager :=
  if (categories.foldl (updateMultipleStep m.options.requiredCategories)
      (m.consentState, false)).2 then
    { m with consentState :=
        { (categories.foldl (updateMultipleStep m.options.requiredCategories)
            (m.consentState, false)).1 with lastUpdated := now } }
  else
    { m with consentState :=
        (categories.foldl (updateMultipleStep m.options.requiredCategories)
          (m.consentState, false)).1 }

/-- The `resetConsent()`: reinstate the constructor defaults (keeping the
region), then apply regional defaults. -/
def ConsentManager.resetConsent (m : ConsentManager) (now : Int) :
    ConsentManager :=
  let s : ConsentState :=
    { essential := true
      functionality := false
      analytics := false
      advertising := false
      personalization := false
      lastUpdated := now
      region := m.consentState.region }
  { m with consentState := applyRegionalDefaults m.options s }

/-- The `JSON.parse`d value found under `tracejs_consent`, after the
shape check `typeof parsed.lastUpdated === "number" &&
typeof parsed.region === "string"` succeeded.  `essential` keeps the
three-way distinction the source tests (`parsed.essential === false`);
the other grants are recorded as their JS truthiness. -/
structure SavedConsent where
  essential : Option Bool
  functionality : Bool
  analytics : Bool
  advertising : Bool
  personalization : Bool
  lastUpdated : Int
  region : ConsentRegion

/-- The `loadSavedConsent()`: replace the state from a valid saved object
(`essential` defaults to `true` unless it was saved as literally
`false`); absent or invalid saved data leaves the state alone. -/
def ConsentManager.loadSavedConsent (m : ConsentManager)
    (saved : Option SavedConsent) : ConsentManager :=
  match saved with
  | none => m
  | some p =>
      { m with consentState :=
          { essential := if p.essential = some false then false else true
            functionality := p.functionality
            analytics := p.analytics
            advertising := p.advertising
            personalization := p.personalization
            lastUpdated := p.lastUpdated
            region := p.region } }

/-- Step 1 of `initialize()`: load saved consent when persisting. -/
def ConsentManager.loadStep (m : ConsentManager)
    (saved : Option SavedConsent) : ConsentManager :=
  if m.options.persistConsent then m.loadSavedConsent saved else m

/-- Step 2 of `initialize()`: adopt the detected region when
auto-detecting. -/
def ConsentManager.regionStep (m : ConsentManager)
    (detectedRegion : ConsentRegion) : ConsentManager :=
  if m.options.autoDetectRegion then
    { m with consentState :=
        { m.consentState with region := detectedRegion } }
  else m

/-- Step 3 of `initialize()`: apply the regional defaults in place. -/
def ConsentManager.applyDefaultsStep (m : ConsentManager) : ConsentManager :=
  { m with consentState := applyRegionalDefaults m.options m.consentState }

/-- The `initialize()`: load saved consent (when persisting), adopt the
detected region (when auto-detecting), apply regional defaults, mark
initialised.  Already-initialised managers return unchanged. -/
def ConsentManager.initConsent (m : ConsentManager)
    (saved : Option SavedConsent) (detectedRegion : ConsentRegion) :
    ConsentManager :=
  if m.initialized then m
  else
    { ((m.loadStep saved).regionStep detectedRegion).applyDefaultsStep with
      initialized := true }

/-- The `getConsentState()` returns `{ ...this.consentState }`, a fresh
object.  To state the aliasing consequence we model the JS object heap:
a list of `ConsentState` cells addressed by index. -/
abbrev Heap : Type := List ConsentState

/-- Dereference an object address. -/
def heapRead (h : Heap) (a : Nat) : Option ConsentState := h[a]?

/-- Mutate the object at an address in place. -/
def heapWrite (h : Heap) (a : Nat) (v : ConsentState) : Heap := h.set a v

/-- Allocate a fresh object; its address is the previous heap size. -/
def heapAlloc (h : Heap) (v : ConsentState) : Heap × Nat :=
  (h ++ [v], h.length)

/-- The `getConsentState()` on a manager whose `consentState` object lives
at address `a`: build the spread copy `{ ...this.consentState }` as a
fresh allocation and return its address. -/
def getConsentStateH (h : Heap) (a : Nat) : Heap × Nat :=
  match heapRead h a with
  | some s => heapAlloc h s
  | none => heapAlloc h (ConsentManager.construct
      ⟨fun _ => false, [], fun _ => none, false, ConsentRegion.global,
        false⟩ 0).consentState

/-- The `hasConsent` as observed through the heap: the manager's state is
the object at address `a`. -/
def hasConsentAt (h : Heap) (a : Nat) (opts : ConsentOptions)
    (method : String) : Option Bool :=
  (heapRead h a).map fun s =>
    (ConsentManager.hasConsent ⟨opts, s, true⟩ method).1

/-! ## Fingerprint orchestrator (`src/index.ts`)

A call to `generateFingerprint` / `getFingerprintStrength` /
`getDetailedFingerprint` awaits each active collector's
`getFingerprintData()`; the values those promises resolve to at this
call are the `collected` list (collectors never reject, per the §6
contract).  `JSON.stringify` over the merged characteristics and the
SHA-256 `hashString` are host functions, passed as oracles; `hashString`
may reject, hence `Except`. -/

/-- The `{ score, details }` as in
`src/interfaces/BrowserCharacteristics.ts`. -/
structure FingerprintStrength where
  score : ℚ
  details : List String
  deriving DecidableEq, Repr

/-- One collector's resolved `getFingerprintData()` value:
a partial characteristics object (string keys in insertion order) plus a
strength report. -/
structure FPData where
  characteristics : List (String × String)
  strength : FingerprintStrength
  deriving DecidableEq, Repr

/-- JS object spread update `{...acc, key: value}`: an existing key
keeps its position and takes the new value; a new key is appended. -/
def spreadInsert (acc : List (String × String)) (kv : String × String) :
    List (String × String) :=
  if acc.any (fun p => p.1 = kv.1) then
    acc.map (fun p => if p.1 = kv.1 then (p.1, kv.2) else p)
  else acc ++ [kv]

/-- The `fingerprintData.reduce((acc, curr) => ({...acc, ...curr.characteristics}), {})`:
later collectors overwrite earlier ones on key collision. -/
def mergeCharacteristics (data : List FPData) : List (String × String) :=
  data.foldl (fun acc d => d.characteristics.foldl spreadInsert acc) []

/-- The fall-through path of `generateFingerprint()` past the cache
check: merge the collected characteristics, hash their serialization,
persist and return the digest; when hashing rejects, the enclosing
`catch` returns the empty string. -/
def computeAndCache (hashString : String → Except String String)
    (stringify : List (String × String) → String) (origin : String)
    (collected : List FPData) (now : Int) (st1 : Storage String) :
    String × Storage String :=
  match hashString (stringify (mergeCharacteristics collected)) with
  | Except.ok fingerprint =>
      (fingerprint,
       saveToCache (generateCacheKey "fingerprint" origin) fingerprint now st1)
  | Except.error _ => ("", st1)

/-- The `generateFingerprint()`: consult the cache under the fixed key;
`if (cachedFingerprint)` — a truthy (non-null, non-empty) cached digest
is returned as is; otherwise fall through to `computeAndCache`.
Returns the digest and the store after the call. -/
def generateFingerprint (hashString : String → Except String String)
    (stringify : List (String × String) → String) (origin : String)
    (collected : List FPData) (now : Int) (st : Storage String) :
    String × Storage String :=
  match getFromCache (generateCacheKey "fingerprint" origin)
      DEFAULT_CACHE_VALIDITY now st with
  | (some cachedFingerprint, st1) =>
      if cachedFingerprint ≠ "" then (cachedFingerprint, st1)
      else computeAndCache hashString stringify origin collected now st1
  | (none, st1) =>
      computeAndCache hashString stringify origin collected now st1

/-- The `getFingerprintStrength()`: sum the collectors' scores, divide by
the number of active collectors when positive (else score 0), and
concatenate all detail strings in activation order. -/
def getFingerprintStrength (collected : List FPData) :
    FingerprintStrength :=
  let totalScore := (collected.map (fun d => d.strength.score)).sum
  { score :=
      if collected.length > 0 then totalScore / (collected.length : ℚ)
      else 0
    details := (collected.map (fun d => d.strength.details)).flatten }

/-- The record `getDetailedFingerprint()` resolves with. -/
structure DetailedFingerprint where
  fingerprint : String
  characteristics : List (String × String)
  strength : FingerprintStrength
  deriving DecidableEq, Repr

/-- The `getDetailedFingerprint()`: merge, score, hash — and rethrow any
failure to the caller (`catch (error) { ... throw error; }`). -/
def getDetailedFingerprint (hashString : String → Except String String)
    (stringify : List (String × String) → String)
    (collected : List FPData) : Except String DetailedFingerprint :=
  let characteristics := mergeCharacteristics collected
  let strength := getFingerprintStrength collected
  match hashString (stringify characteristics) with
  | Except.ok fingerprint =>
      Except.ok ⟨fingerprint, characteristics, strength⟩
  | Except.error e => Except.error e

/-! ## Behavioral metrics engine (`src/services/BehaviorFingerprint.ts`)

The raw sample buffers accumulated during the training window
(`mouseData`, `keyData`, `touchData`) are the inputs; coordinates,
sizes, durations and `Date.now()` timestamps are JS numbers, modelled
as rationals, with `Math.sqrt` distances in `ℝ`.  Metrics objects are
records of optional fields: a field is `none` exactly when the source
never assigns it, and a channel of the profile is `none` exactly when
`processCollectedData` stores `undefined` for it. -/

/-- One `{x, y, timestamp}` mouse sample. -/
structure MouseSample where
  x : ℚ
  y : ℚ
  timestamp : ℚ
  deriving DecidableEq, Repr

/-- The `MouseMetrics` fields `calculateMouseMetrics` can assign
(`averageSpeed`, `directionChanges`, `hesitations`; the remaining
optional fields of the TS interface are never assigned anywhere). -/
structure MouseMetrics where
  averageSpeed : Option ℝ
  directionChanges : Option ℕ
  hesitations : Option ℕ

/-- The consecutive pairs `(this.mouseData[i-1], this.mouseData[i])`
ranged over by each `for (let i = 1; ...)` loop. -/
def consecutivePairs {α : Type} (l : List α) : List (α × α) :=
  l.zip l.tail

/-- Euclidean distance `Math.sqrt(dx*dx + dy*dy)` between two samples
(on the `(x, y)` projections). -/
noncomputable def sampleDistance (x₁ y₁ x₂ y₂ : ℚ) : ℝ :=
  Real.sqrt (((x₂ - x₁) * (x₂ - x₁) + (y₂ - y₁) * (y₂ - y₁) : ℚ) : ℝ)

/-- The speed-accumulation loop of `calculateMouseMetrics`: add
`distance / timeDiff` and bump the sample count when `timeDiff > 0`. -/
noncomputable def mouseSpeedFold (acc : ℝ × ℕ) (pq : MouseSample × MouseSample) :
    ℝ × ℕ :=
  if 0 < pq.2.timestamp - pq.1.timestamp then
    (acc.1 + sampleDistance pq.1.x pq.1.y pq.2.x pq.2.y
      / ((pq.2.timestamp - pq.1.timestamp : ℚ) : ℝ),
     acc.2 + 1)
  else acc

/-- The `currDirection` for one consecutive pair: dominant axis, then sign
(4 right, 3 left, 2 down, 1 up). -/
def mouseDirection (pq : MouseSample × MouseSample) : ℕ :=
  let dx := pq.2.x - pq.1.x
  let dy := pq.2.y - pq.1.y
  if |dx| > |dy| then (if dx > 0 then 4 else 3)
  else (if dy > 0 then 2 else 1)

/-- The direction-change loop: carry `prevDirection` (0 = undefined) and
count pairs whose direction differs from a defined previous one. -/
def mouseDirectionFold (acc : ℕ × ℕ) (pq : MouseSample × MouseSample) :
    ℕ × ℕ :=
  let currDirection := mouseDirection pq
  let bump := acc.1 ≠ 0 ∧ currDirection ≠ acc.1
  (currDirection, if bump then acc.2 + 1 else acc.2)

/-- The `(totalSpeed, speedSamples)` accumulator after the first loop of
`calculateMouseMetrics`. -/
noncomputable def mouseSpeeds (mouseData : List MouseSample) : ℝ × ℕ :=
  (consecutivePairs mouseData).foldl mouseSpeedFold (0, 0)

/-- The `metrics.averageSpeed = speedSamples > 0 ? totalSpeed / speedSamples : 0`. -/
noncomputable def mouseAverageSpeed (mouseData : List MouseSample) : ℝ :=
  if (mouseSpeeds mouseData).2 > 0 then
    (mouseSpeeds mouseData).1 / ((mouseSpeeds mouseData).2 : ℝ)
  else 0

/-- The `metrics.directionChanges`: the second loop's counter. -/
def mouseDirectionChanges (mouseData : List MouseSample) : ℕ :=
  ((consecutivePairs mouseData).foldl mouseDirectionFold (0, 0)).2

/-- The `metrics.hesitations`: consecutive-sample gaps above 300 ms. -/
def mouseHesitations (mouseData : List MouseSample) : ℕ :=
  (consecutivePairs mouseData).countP
    (fun pq => 300 < pq.2.timestamp - pq.1.timestamp)

/-- The `calculateMouseMetrics()`: below 10 samples return the empty metrics
object `{}`; otherwise assign average speed, direction changes and
hesitations. -/
noncomputable def calculateMouseMetrics (mouseData : List MouseSample) :
    MouseMetrics :=
  if mouseData.length < 10 then ⟨none, none, none⟩
  else ⟨some (mouseAverageSpeed mouseData),
        some (mouseDirectionChanges mouseData),
        some (mouseHesitations mouseData)⟩

/-- One `{key, duration, timestamp}` keyboard sample. -/
structure KeySample where
  key : String
  duration : ℚ
  timestamp : ℚ
  deriving DecidableEq, Repr

/-- The `KeyboardMetrics` fields `calculateKeyboardMetrics` can
assign. -/
structure KeyboardMetrics where
  keyPressTime : Option ℚ
  typingSpeed : Option ℚ
  deletionRate : Option ℚ
  deriving DecidableEq, Repr

/-- The `privacyMode` enumeration. -/
inductive PrivacyMode where
  | full | balanced | minimal
  deriving DecidableEq, Repr

/-- The `calculateKeyboardMetrics()`: below 5 samples the empty object;
otherwise average hold duration, characters per second over the sample
span (exact rational division standing for JS float division), and — in
full privacy mode with more than 20 samples — the backspace ratio. -/
def calculateKeyboardMetrics (privacyMode : PrivacyMode)
    (keyData : List KeySample) : KeyboardMetrics :=
  if keyData.length < 5 then ⟨none, none, none⟩
  else
    let totalPressTimes := (keyData.map (fun d => d.duration)).sum
    let keyPressTime := totalPressTimes / (keyData.length : ℚ)
    let typingSpeed : Option ℚ :=
      if keyData.length ≥ 2 then
        let timeSpan := ((keyData.getLast?.map (fun d => d.timestamp)).getD 0)
          - ((keyData.head?.map (fun d => d.timestamp)).getD 0)
        some ((keyData.length : ℚ) / (timeSpan / 1000))
      else none
    let deletionRate : Option ℚ :=
      if privacyMode = PrivacyMode.full ∧ keyData.length > 20 then
        some (((keyData.countP (fun k => k.key = "Backspace")) : ℚ)
          / (keyData.length : ℚ))
      else none
    ⟨some keyPressTime, typingSpeed, deletionRate⟩

/-- One `{x, y, size, timestamp}` touch sample. -/
structure TouchSample where
  x : ℚ
  y : ℚ
  size : ℚ
  timestamp : ℚ
  deriving DecidableEq, Repr

/-- The `swipeCharacteristics` as assigned by `calculateTouchMetrics`. -/
structure SwipeCharacteristics where
  speed : Option ℝ

/-- The `TouchMetrics` fields `calculateTouchMetrics` can assign. -/
structure TouchMetrics where
  touchSize : Option ℚ
  swipeCharacteristics : Option SwipeCharacteristics

/-- The swipe-speed loop: pairs within the same gesture
(`0 < timeDiff < 300`). -/
noncomputable def touchSwipeFold (acc : ℝ × ℕ) (pq : TouchSample × TouchSample) :
    ℝ × ℕ :=
  let timeDiff := pq.2.timestamp - pq.1.timestamp
  if 0 < timeDiff ∧ timeDiff < 300 then
    (acc.1 + sampleDistance pq.1.x pq.1.y pq.2.x pq.2.y / (timeDiff : ℝ),
     acc.2 + 1)
  else acc

/-- The `calculateTouchMetrics()`: below 10 samples the empty object;
otherwise average contact size, and swipe characteristics only when at
least one same-gesture pair exists. -/
noncomputable def calculateTouchMetrics (touchData : List TouchSample) :
    TouchMetrics :=
  if touchData.length < 10 then ⟨none, none⟩
  else
    let totalSize := (touchData.map (fun d => d.size)).sum
    let touchSize := totalSize / (touchData.length : ℚ)
    let swipe := (consecutivePairs touchData).foldl touchSwipeFold (0, 0)
    let swipeCharacteristics : Option SwipeCharacteristics :=
      if swipe.2 > 0 then some ⟨some (swipe.1 / (swipe.2 : ℝ))⟩ else none
    ⟨some touchSize, swipeCharacteristics⟩

/-- The `BehaviorProfile`: each channel optional — `none` means the channel
key holds `undefined` (omitted from the serialized profile). -/
structure BehaviorProfile where
  mouse : Option MouseMetrics
  keyboard : Option KeyboardMetrics
  touch : Option TouchMetrics

/-- The `BehaviorOptions` fields the metrics pipeline reads (after the
constructor's defaults merge).  `sampleRate` and `trainingDuration`
only drive the event listeners and the timer, not these functions. -/
structure BehaviorOptions where
  trackMouse : Bool
  trackKeyboard : Bool
  trackTouch : Bool
  privacyMode : PrivacyMode

/-- The profile built by `processCollectedData()` from the raw sample
buffers: each tracked channel gets its calculated metrics object,
untracked channels get `undefined`. -/
noncomputable def processCollectedData (opts : BehaviorOptions)
    (mouseData : List MouseSample) (keyData : List KeySample)
    (touchData : List TouchSample) : BehaviorProfile :=
  { mouse :=
      if opts.trackMouse then some (calculateMouseMetrics mouseData)
      else none
    keyboard :=
      if opts.trackKeyboard then
        some (calculateKeyboardMetrics opts.privacyMode keyData)
      else none
    touch :=
      if opts.trackTouch then some (calculateTouchMetrics touchData)
      else none }

/-- A 3-sample mouse trace (below the 10-sample threshold). -/
def threeMouseSamples : List MouseSample :=
  [⟨0, 0, 0⟩, ⟨1, 0, 100⟩, ⟨2, 0, 200⟩]

/-- A 5-sample mouse trace (below the 10-sample threshold). -/
def fiveMouseSamples : List MouseSample :=
  [⟨0, 0, 0⟩, ⟨1, 0, 100⟩, ⟨2, 0, 200⟩, ⟨3, 0, 300⟩, ⟨4, 0, 400⟩]

/-- A 12-sample mouse trace (above the 10-sample threshold). -/
def twelveMouseSamples : List MouseSample :=
  [⟨0, 0, 0⟩, ⟨4, 0, 100⟩, ⟨8, 0, 200⟩, ⟨12, 0, 300⟩, ⟨16, 0, 400⟩,
   ⟨20, 0, 500⟩, ⟨24, 4, 600⟩, ⟨24, 8, 700⟩, ⟨24, 12, 800⟩, ⟨24, 16, 1200⟩,
   ⟨28, 16, 1300⟩, ⟨32, 16, 1400⟩]

/-- An attribute set whose only present attribute is a battery string on
which `JSON.parse` throws. -/
def batteryUnparsableOnly : FingerprintCharacteristics :=
  ⟨some BatteryValue.unparsable, false, false, false, false, false⟩

/-! ## Storage lemmas -/

/-- Reading a key just written returns the written cell. -/
theorem lookupStored_setItem_self {T : Type} (key : String)
    (c : StoredCell T) (st : Storage T) :
    lookupStored (setItem key c st) key = some c := by
  simp [setItem, lookupStored]

/-- Reading a key just removed finds nothing. -/
theorem lookupStored_removeItem_self {T : Type} (key : String)
    (st : Storage T) : lookupStored (removeItem key st) key = none := by
  induction st with
  | nil => rfl
  | cons kv rest ih =>
      by_cases h : kv.1 = key
      · simpa [removeItem, h] using ih
      · simpa [removeItem, lookupStored, h] using ih

/-- A cache hit leaves the store untouched and reports the stored
entry. -/
theorem getFromCache_hit {T : Type} {key : String} {validityPeriod now : Int}
    {st : Storage T} {d : T} :
    (getFromCache key validityPeriod now st).1 = some d →
    ∃ ts, lookupStored st key = some (StoredCell.entry d ts)
      ∧ now - ts < validityPeriod
      ∧ getFromCache key validityPeriod now st = (some d, st) := by
  intro h
  unfold getFromCache at h ⊢
  cases hl : lookupStored st key with
  | none => simp [hl] at h
  | some c =>
      cases c with
      | entry d' ts =>
          by_cases hv : now - ts < validityPeriod
          · simp only [hl, if_pos hv] at h ⊢
            obtain rfl : d' = d := by simpa using h
            exact ⟨ts, rfl, hv, rfl⟩
          · simp [hl, if_neg hv] at h
      | unparsable => simp [hl] at h
      | wrongShape => simp [hl] at h

/-- A cache miss leaves no well-formed entry under the key in the
post-call store. -/
theorem getFromCache_miss_no_entry {T : Type} {key : String}
    {validityPeriod now : Int} {st : Storage T} {d : T} {t : Int} :
    (getFromCache key validityPeriod now st).1 = none →
    lookupStored (getFromCache key validityPeriod now st).2 key
      ≠ some (StoredCell.entry d t) := by
  intro h
  unfold getFromCache at h ⊢
  cases hl : lookupStored st key with
  | none => simp [hl]
  | some c =>
      cases c with
      | entry d' ts' =>
          by_cases hv : now - ts' < validityPeriod
          · simp [hl, if_pos hv] at h
          · simp [hl, if_neg hv, lookupStored_removeItem_self]
      | unparsable => simp [hl]
      | wrongShape => simp [hl, lookupStored_removeItem_self]

/-- C3: a value saved at `t0` reads back verbatim while
`t - t0 < validityPeriod` (store untouched); an expired read returns
nothing-found and removes the entry; a corrupt or unparsable stored
entry reads as nothing-found instead of raising. -/
theorem getFromCache_saveToCache_spec {T : Type} (key : String) (v : T)
    (t0 t validityPeriod : Int) (st : Storage T) :
    (t - t0 < validityPeriod →
      getFromCache key validityPeriod t (saveToCache key v t0 st)
        = (some v, saveToCache key v t0 st))
    ∧ (validityPeriod ≤ t - t0 →
      (getFromCache key validityPeriod t (saveToCache key v t0 st)).1 = none
      ∧ lookupStored
          (getFromCache key validityPeriod t (saveToCache key v t0 st)).2 key
          = none)
    ∧ (∀ st' : Storage T,
        (lookupStored st' key = some StoredCell.unparsable
          ∨ lookupStored st' key = some StoredCell.wrongShape) →
        (getFromCache key validityPeriod t st').1 = none) := by
  refine ⟨?_, ?_, ?_⟩
  · intro h
    unfold getFromCache
    rw [show lookupStored (saveToCache key v t0 st) key
        = some (StoredCell.entry v t0) from lookupStored_setItem_self _ _ _]
    simp [if_pos h]
  · intro h
    have hv : ¬ (t - t0 < validityPeriod) := by omega
    unfold getFromCache
    rw [show lookupStored (saveToCache key v t0 st) key
        = some (StoredCell.entry v t0) from lookupStored_setItem_self _ _ _]
    simp [if_neg hv, lookupStored_removeItem_self]
  · intro st' h
    rcases h with h | h <;> simp [getFromCache, h]

/-- Witness for C3 at `K`, value `"v"`, written at `t0 = 0` with
validity 1000 ms: a read at 500 returns the value, a read at 1500
returns nothing and deletes the entry, and a read of an unparsable slot
returns nothing. -/
theorem getFromCache_saveToCache_spec_witness :
    (getFromCache "K" 1000 500 (saveToCache "K" "v" 0 [])
      = (some "v", saveToCache "K" "v" 0 []))
    ∧ ((getFromCache "K" 1000 1500 (saveToCache "K" "v" 0 [])).1 = none
      ∧ lookupStored
          (getFromCache "K" 1000 1500 (saveToCache "K" "v" 0 [])).2 "K"
          = none)
    ∧ (getFromCache "K" 1000 1500
        [("K", StoredCell.unparsable (T := String))]).1 = none :=
  ⟨(getFromCache_saveToCache_spec "K" "v" 0 500 1000 []).1 (by decide),
   (getFromCache_saveToCache_spec "K" "v" 0 1500 1000 []).2.1 (by decide),
   (getFromCache_saveToCache_spec "K" "v" 0 1500 1000 []).2.2
     [("K", StoredCell.unparsable)] (Or.inl (by decide))⟩

/-! ## Cache key -/

/-- C4 counterexample: the distinct origins `"Aa"` and `"BB"` hash to
the same 32-bit value (2112), so they produce the same cache key under
the `"fingerprint"` prefix — different origins can collide. -/
theorem generateCacheKey_collision :
    generateCacheKey "fingerprint" "Aa" = generateCacheKey "fingerprint" "BB"
    ∧ "Aa" ≠ "BB" := by
  decide

/-- The `toInt32` always lands in the signed 32-bit range. -/
theorem toInt32_range (n : Int) : -(2 ^ 31) ≤ toInt32 n ∧ toInt32 n < 2 ^ 31 := by
  unfold toInt32
  have h1 : (0 : Int) ≤ (n + 2 ^ 31) % 2 ^ 32 :=
    Int.emod_nonneg _ (by norm_num)
  have h2 : (n + 2 ^ 31) % 2 ^ 32 < 2 ^ 32 :=
    Int.emod_lt_of_pos _ (by norm_num)
  omega

/-- The origin hash always lands in the signed 32-bit range
(the `hash |= 0` invariant). -/
theorem originHash_range (origin : String) :
    -(2 ^ 31) ≤ originHash origin ∧ originHash origin < 2 ^ 31 := by
  unfold originHash
  have key : ∀ (l : List Char) (h : Int),
      -(2 ^ 31) ≤ h ∧ h < 2 ^ 31 →
      -(2 ^ 31) ≤ l.foldl hashStep h ∧ l.foldl hashStep h < 2 ^ 31 := by
    intro l
    induction l with
    | nil => intro h hh; simpa using hh
    | cons c rest ih =>
        intro h _
        simpa [List.foldl] using ih (hashStep h c) (toInt32_range _)
  exact key origin.toList 0 (by norm_num)

/-- C4 amended: the cache key is a deterministic function of the prefix
and the 32-bit origin hash — equal hashes give equal keys (so two
instances on the same origin always agree) — and the hash stays in the
signed 32-bit range; but distinct origins may share a hash, so distinct
origins can collide under the same prefix. -/
theorem generateCacheKey_deterministic (pre o₁ o₂ : String) :
    (originHash o₁ = originHash o₂ →
      generateCacheKey pre o₁ = generateCacheKey pre o₂)
    ∧ (-(2 ^ 31) ≤ originHash o₁ ∧ originHash o₁ < 2 ^ 31) := by
  refine ⟨fun h => ?_, originHash_range o₁⟩
  unfold generateCacheKey
  rw [h]

/-- Witness for the amended C4 at the colliding pair: equal origin
hashes for `"Aa"` and `"BB"` propagate to equal keys. -/
theorem generateCacheKey_deterministic_witness :
    generateCacheKey "fingerprint" "Aa" = generateCacheKey "fingerprint" "BB" :=
  (generateCacheKey_deterministic "fingerprint" "Aa" "BB").1 (by decide)

/-! ## Orchestrator theorems -/

/-- Unfolding equation for `generateFingerprint` with its `let`
bindings resolved. -/
theorem generateFingerprint_eq (hashString : String → Except String String)
    (stringify : List (String × String) → String) (origin : String)
    (collected : List FPData) (now : Int) (st : Storage String) :
    generateFingerprint hashString stringify origin collected now st
      = match getFromCache (generateCacheKey "fingerprint" origin)
          DEFAULT_CACHE_VALIDITY now st with
        | (some cachedFingerprint, st1) =>
            if cachedFingerprint ≠ "" then (cachedFingerprint, st1)
            else computeAndCache hashString stringify origin collected now st1
        | (none, st1) =>
            computeAndCache hashString stringify origin collected now st1 :=
  rfl

/-- Unfolding equation for `getDetailedFingerprint` with its `let`
bindings resolved. -/
theorem getDetailedFingerprint_eq
    (hashString : String → Except String String)
    (stringify : List (String × String) → String)
    (collected : List FPData) :
    getDetailedFingerprint hashString stringify collected
      = match hashString (stringify (mergeCharacteristics collected)) with
        | Except.ok fingerprint =>
            Except.ok ⟨fingerprint, mergeCharacteristics collected,
              getFingerprintStrength collected⟩
        | Except.error e => Except.error e := rfl

/-- C1: if a `generateFingerprint` call returns a digest `d` (a digest
is non-empty: the empty string is the documented failure sentinel, not
a digest) leaving store `st₁`, and at the time of a second call the
entry under the fingerprint cache key is still within the validity
window (no other write to that key having intervened), then the second
call returns exactly `d` and leaves the store untouched — whatever the
collectors would now produce and however the hash oracle behaves, since
the collectors are not re-run on a cache hit. -/
theorem generateFingerprint_cache_consistency
    (hash₁ hash₂ : String → Except String String)
    (stringify₁ stringify₂ : List (String × String) → String)
    (origin : String) (collected₁ collected₂ : List FPData)
    (st₀ st₁ : Storage String) (t₀ t₁ : Int) (d : String)
    (hd : d ≠ "")
    (h₁ : generateFingerprint hash₁ stringify₁ origin collected₁ t₀ st₀
      = (d, st₁))
    (hvalid : ∃ tw v,
      lookupStored st₁ (generateCacheKey "fingerprint" origin)
        = some (StoredCell.entry v tw)
      ∧ t₁ - tw < DEFAULT_CACHE_VALIDITY) :
    generateFingerprint hash₂ stringify₂ origin collected₂ t₁ st₁
      = (d, st₁) := by
  obtain ⟨tw, v, hlook, hfresh⟩ := hvalid
  suffices hvd : v = d by
    rw [generateFingerprint_eq]
    unfold getFromCache
    simp only [hlook, if_pos hfresh]
    rw [hvd, if_pos hd]
  have hcompute : ∀ st' : Storage String,
      computeAndCache hash₁ stringify₁ origin collected₁ t₀ st' = (d, st₁) →
      v = d := by
    intro st' hcc
    unfold computeAndCache at hcc
    cases hh : hash₁ (stringify₁ (mergeCharacteristics collected₁)) with
    | ok fp =>
        rw [hh] at hcc
        have hfp : fp = d := congrArg Prod.fst hcc
        have hst : saveToCache (generateCacheKey "fingerprint" origin)
            fp t₀ st' = st₁ := congrArg Prod.snd hcc
        rw [← hst, saveToCache] at hlook
        rw [lookupStored_setItem_self] at hlook
        have := (StoredCell.entry.injEq _ _ _ _).mp (Option.some.inj hlook)
        rw [← this.1]
        exact hfp
    | error e =>
        rw [hh] at hcc
        exact absurd (congrArg Prod.fst hcc).symm hd
  rw [generateFingerprint_eq] at h₁
  rcases hg : getFromCache (generateCacheKey "fingerprint" origin)
      DEFAULT_CACHE_VALIDITY t₀ st₀ with ⟨o, st'⟩
  rw [hg] at h₁
  cases o with
  | some c =>
      replace h₁ : (if c ≠ "" then (c, st')
          else computeAndCache hash₁ stringify₁ origin collected₁ t₀ st')
          = (d, st₁) := h₁
      by_cases hce : c ≠ ""
      · rw [if_pos hce] at h₁
        have hc : c = d := congrArg Prod.fst h₁
        have hst' : st' = st₁ := congrArg Prod.snd h₁
        obtain ⟨ts, hl₀, _, heq⟩ := getFromCache_hit (d := c)
          (by rw [hg])
        have hst : st' = st₀ := congrArg Prod.snd (hg.symm.trans heq)
        rw [hst'.symm, hst, hl₀] at hlook
        have := (StoredCell.entry.injEq _ _ _ _).mp (Option.some.inj hlook)
        rw [← this.1]
        exact hc
      · rw [if_neg hce] at h₁
        exact hcompute st' h₁
  | none =>
      exact hcompute st' h₁

/-- Witness for C1: a first call on an empty store at `t₀ = 0` (origin
`"o"`, whose 32-bit hash is 111) computes and caches digest `"d0"`; a
second call 1000 ms later with a collector now reporting a different
battery level (and even a different hash oracle) still returns `"d0"`
and leaves the store alone. -/
theorem generateFingerprint_cache_consistency_witness :
    generateFingerprint (fun _ => Except.error "unused")
      (fun _ => "serialized2") "o"
      [⟨[("battery", "level:0.2")], ⟨5, []⟩⟩] 1000
      [("tracejs_fingerprint_111", StoredCell.entry "d0" 0)]
    = ("d0", [("tracejs_fingerprint_111", StoredCell.entry "d0" 0)]) :=
  generateFingerprint_cache_consistency
    (fun _ => Except.ok "d0") (fun _ => Except.error "unused")
    (fun _ => "serialized1") (fun _ => "serialized2")
    "o"
    [⟨[("battery", "level:0.9")], ⟨5, []⟩⟩]
    [⟨[("battery", "level:0.2")], ⟨5, []⟩⟩]
    [] [("tracejs_fingerprint_111", StoredCell.entry "d0" 0)]
    0 1000 "d0" (by decide) (by decide)
    ⟨0, "d0", by decide, by decide⟩

/-- C5: with zero active collectors the strength report's score is
exactly 0 (total executability of the embedding showing there is no
division fault), and with at least one collector the score is the sum
of the collectors' scores divided by the number of active
collectors. -/
theorem getFingerprintStrength_average (collected : List FPData) :
    (getFingerprintStrength ([] : List FPData)).score = 0
    ∧ (collected.length > 0 →
      (getFingerprintStrength collected).score
        = (collected.map (fun d => d.strength.score)).sum
          / (collected.length : ℚ)) := by
  refine ⟨rfl, fun h => ?_⟩
  unfold getFingerprintStrength
  simp [if_pos h]

/-- Witness for C5: two collectors scoring 10 and 20 average to 15. -/
theorem getFingerprintStrength_average_witness :
    (getFingerprintStrength ([] : List FPData)).score = 0
    ∧ (getFingerprintStrength
        [⟨[], ⟨10, ["a"]⟩⟩, ⟨[], ⟨20, ["b"]⟩⟩]).score
      = (([⟨[], ⟨10, ["a"]⟩⟩, ⟨[], ⟨20, ["b"]⟩⟩] : List FPData).map
          (fun d => d.strength.score)).sum / 2 :=
  ⟨(getFingerprintStrength_average []).1,
   (getFingerprintStrength_average
      [⟨[], ⟨10, ["a"]⟩⟩, ⟨[], ⟨20, ["b"]⟩⟩]).2 (by decide)⟩

/-- C9: when hashing the serialized merged attributes fails,
`getDetailedFingerprint` surfaces the failure to its caller, while
`generateFingerprint` (reaching the computation on a cache miss)
swallows it and returns the empty string. -/
theorem hash_failure_asymmetry
    (hashString : String → Except String String)
    (stringify : List (String × String) → String)
    (collected : List FPData) (e : String)
    (origin : String) (st : Storage String) (now : Int)
    (hfail : hashString (stringify (mergeCharacteristics collected))
      = Except.error e)
    (hmiss : (getFromCache (generateCacheKey "fingerprint" origin)
      DEFAULT_CACHE_VALIDITY now st).1 = none) :
    getDetailedFingerprint hashString stringify collected = Except.error e
    ∧ (generateFingerprint hashString stringify origin collected now st).1
      = "" := by
  constructor
  · rw [getDetailedFingerprint_eq, hfail]
  · rw [generateFingerprint_eq]
    rcases hg : getFromCache (generateCacheKey "fingerprint" origin)
        DEFAULT_CACHE_VALIDITY now st with ⟨o, st'⟩
    have ho : o = none := by
      rw [hg] at hmiss
      exact hmiss
    subst ho
    show (computeAndCache hashString stringify origin collected now st').1 = ""
    unfold computeAndCache
    rw [hfail]

/-- Witness for C9: a hash oracle that always rejects with `"boom"` on
an empty store — the detailed report propagates the error, the plain
digest call returns the empty string. -/
theorem hash_failure_asymmetry_witness :
    getDetailedFingerprint (fun _ => Except.error "boom") (fun _ => "s") []
      = Except.error "boom"
    ∧ (generateFingerprint (fun _ => Except.error "boom") (fun _ => "s")
        "https://a.example" [] 0 []).1 = "" :=
  hash_failure_asymmetry (fun _ => Except.error "boom") (fun _ => "s")
    [] "boom" "https://a.example" [] 0 rfl rfl

/-! ## Consent theorems -/

/-- The `setCat` touches only the addressed category (here: its effect on
the `essential` grant). -/
theorem essential_setCat (s : ConsentState) (c : ConsentCategory) (b : Bool) :
    (s.setCat c b).essential
      = if c = ConsentCategory.essential then b else s.essential := by
  cases c <;> simp [ConsentState.setCat]

/-- The required-categories pass of `applyRegionalDefaults` forces
`essential` to `true` whenever `essential` is required, and otherwise
leaves it alone. -/
theorem foldl_setTrue_essential (l : List ConsentCategory) (s : ConsentState) :
    (l.foldl (fun acc c => acc.setCat c true) s).essential
      = (s.essential || ConsentCategory.essential ∈ l) := by
  induction l generalizing s with
  | nil => simp
  | cons c rest ih =>
      rw [List.foldl_cons, ih]
      by_cases hc : c = ConsentCategory.essential
      · subst hc
        simp [essential_setCat]
      · simp [essential_setCat, hc, Ne.symm hc]

/-- The explicit-consent pass of `applyRegionalDefaults` never touches a
required category. -/
theorem foldl_denyNonRequired_essential (l req : List ConsentCategory)
    (s : ConsentState) (hreq : ConsentCategory.essential ∈ req) :
    (l.foldl (fun acc c => if c ∈ req then acc else acc.setCat c false)
      s).essential = s.essential := by
  induction l generalizing s with
  | nil => rfl
  | cons c rest ih =>
      rw [List.foldl_cons]
      by_cases hc : c ∈ req
      · rw [if_pos hc, ih]
      · have hce : c ≠ ConsentCategory.essential :=
          fun he => hc (he.symm ▸ hreq)
        rw [if_neg hc, ih, essential_setCat, if_neg hce]

/-- The `applyRegionalDefaults` leaves `essential` at `true` whenever
`essential` is a required category. -/
theorem applyRegionalDefaults_essential (opts : ConsentOptions)
    (s : ConsentState)
    (hreq : ConsentCategory.essential ∈ opts.requiredCategories) :
    (applyRegionalDefaults opts s).essential = true := by
  have hfold : (applyRequired opts s).essential = true := by
    unfold applyRequired
    rw [foldl_setTrue_essential]
    simp [hreq]
  unfold applyRegionalDefaults
  split
  · rw [foldl_denyNonRequired_essential _ _ _ hreq]
    exact hfold
  · exact hfold

/-- The `loadSavedConsent` never changes the options record. -/
theorem loadSavedConsent_options (m : ConsentManager)
    (saved : Option SavedConsent) :
    (m.loadSavedConsent saved).options = m.options := by
  cases saved <;> rfl

/-- The `updateMultipleConsent` loop body keeps a required `essential`
grant at `true`. -/
theorem updateMultipleStep_essential (req : List ConsentCategory)
    (hreq : ConsentCategory.essential ∈ req)
    (acc : ConsentState × Bool) (entry : ConsentCategory × Bool)
    (h : acc.1.essential = true) :
    (updateMultipleStep req acc entry).1.essential = true := by
  unfold updateMultipleStep
  by_cases h1 : entry.1 ∈ req ∧ entry.2 = false
  · simpa [h1] using h
  · rw [if_neg h1]
    by_cases h2 : acc.1.getCat entry.1 ≠ entry.2
    · rw [if_pos h2]
      by_cases hc : entry.1 = ConsentCategory.essential
      · cases hb : entry.2 with
        | false => exact absurd ⟨hc.symm ▸ hreq, hb⟩ h1
        | true => simp [essential_setCat, hc, hb]
      · simpa [essential_setCat, hc] using h
    · simpa [if_neg h2] using h

/-- C6: with `essential` among the required categories, the `essential`
grant is `true` right after construction and stays `true` across every
completed public operation — `initialize` (whatever was persisted and
whatever region is detected), `updateConsent`, `updateMultipleConsent`
and `resetConsent`; and `updateConsent("essential", false)` is a
no-op. -/
theorem consent_essential_invariant :
    (∀ (opts : ConsentOptions) (now : Int),
      (ConsentManager.construct opts now).consentState.essential = true)
    ∧ (∀ (m : ConsentManager) (saved : Option SavedConsent)
        (det : ConsentRegion),
        ConsentCategory.essential ∈ m.options.requiredCategories →
        m.consentState.essential = true →
        (ConsentManager.initConsent m saved det).consentState.essential = true)
    ∧ (∀ (m : ConsentManager) (cat : ConsentCategory) (granted : Bool)
        (now : Int),
        ConsentCategory.essential ∈ m.options.requiredCategories →
        m.consentState.essential = true →
        (m.updateConsent cat granted now).consentState.essential = true)
    ∧ (∀ (m : ConsentManager) (entries : List (ConsentCategory × Bool))
        (now : Int),
        ConsentCategory.essential ∈ m.options.requiredCategories →
        m.consentState.essential = true →
        (m.updateMultipleConsent entries now).consentState.essential = true)
    ∧ (∀ (m : ConsentManager) (now : Int),
        ConsentCategory.essential ∈ m.options.requiredCategories →
        (m.resetConsent now).consentState.essential = true)
    ∧ (∀ (m : ConsentManager) (now : Int),
        ConsentCategory.essential ∈ m.options.requiredCategories →
        m.updateConsent ConsentCategory.essential false now = m) := by
  refine ⟨fun opts now => rfl, ?_, ?_, ?_, ?_, ?_⟩
  · intro m saved det hreq h
    unfold ConsentManager.initConsent
    by_cases hi : m.initialized
    · simpa [hi] using h
    · rw [if_neg hi]
      show (applyRegionalDefaults
        ((m.loadStep saved).regionStep det).options
        ((m.loadStep saved).regionStep det).consentState).essential = true
      apply applyRegionalDefaults_essential
      have h1 : (m.loadStep saved).options = m.options := by
        unfold ConsentManager.loadStep
        split
        · exact loadSavedConsent_options m saved
        · rfl
      have h2 : ((m.loadStep saved).regionStep det).options
          = (m.loadStep saved).options := by
        unfold ConsentManager.regionStep
        split <;> rfl
      rw [h2, h1]
      exact hreq
  · intro m cat granted now hreq h
    unfold ConsentManager.updateConsent
    by_cases h1 : cat ∈ m.options.requiredCategories ∧ granted = false
    · simpa [h1] using h
    · rw [if_neg h1]
      by_cases hc : cat = ConsentCategory.essential
      · subst hc
        cases granted with
        | false => exact absurd ⟨hreq, rfl⟩ h1
        | true => simp [essential_setCat]
      · simpa [essential_setCat, hc] using h
  · intro m entries now hreq h
    unfold ConsentManager.updateMultipleConsent
    have key : ∀ (l : List (ConsentCategory × Bool))
        (acc : ConsentState × Bool), acc.1.essential = true →
        (l.foldl (updateMultipleStep m.options.requiredCategories)
          acc).1.essential = true := by
      intro l
      induction l with
      | nil => intro acc h; exact h
      | cons e rest ih =>
          intro acc hacc
          exact ih _ (updateMultipleStep_essential _ hreq _ _ hacc)
    have hfold := key entries (m.consentState, false) h
    split
    · exact hfold
    · exact hfold
  · intro m now hreq
    exact applyRegionalDefaults_essential _ _ hreq
  · intro m now hreq
    unfold ConsentManager.updateConsent
    simp [hreq]

/-- Witness for C6 under the default configuration: `essential` is true
at construction, survives `initialize`, and revoking it is a no-op. -/
theorem consent_essential_invariant_witness :
    (ConsentManager.construct defaultConsentOptions 0).consentState.essential
      = true
    ∧ (ConsentManager.initConsent
        (ConsentManager.construct defaultConsentOptions 0) none
        ConsentRegion.gdpr).consentState.essential = true
    ∧ (ConsentManager.construct defaultConsentOptions 0).updateConsent
        ConsentCategory.essential false 7
      = ConsentManager.construct defaultConsentOptions 0 :=
  ⟨consent_essential_invariant.1 defaultConsentOptions 0,
   consent_essential_invariant.2.1
     (ConsentManager.construct defaultConsentOptions 0) none
     ConsentRegion.gdpr (by decide) rfl,
   consent_essential_invariant.2.2.2.2.2
     (ConsentManager.construct defaultConsentOptions 0) 7 (by decide)⟩

/-- C7: a collector name with no entry in the category mapping always
reports consent granted, whatever the per-category grants, the region
and the initialisation status. -/
theorem hasConsent_unmapped (m : ConsentManager) (method : String)
    (h : m.options.categoryMapping method = none) :
    (m.hasConsent method).1 = true := by
  unfold ConsentManager.hasConsent
  by_cases hi : m.initialized <;> simp [hi, h]

/-- Witness for C7: under the default mapping, the unmapped collector
name `"webrtc"` gets consent even with every optional grant denied. -/
theorem hasConsent_unmapped_witness :
    ((ConsentManager.construct defaultConsentOptions 0).hasConsent
      "webrtc").1 = true :=
  hasConsent_unmapped (ConsentManager.construct defaultConsentOptions 0)
    "webrtc" (by decide)

/-! ## Heap theorems for `getConsentState` -/

/-- C10: `getConsentState()` hands back a fresh copy — its address
differs from the manager's state object, reading the copy gives the
same field values, and however the caller mutates the copy, the
manager's internal state and every subsequent `hasConsent` answer are
unchanged. -/
theorem getConsentState_copy (h : Heap) (a : Nat) (s : ConsentState)
    (hread : heapRead h a = some s) :
    (getConsentStateH h a).2 ≠ a
    ∧ heapRead (getConsentStateH h a).1 (getConsentStateH h a).2 = some s
    ∧ ∀ v : ConsentState,
        heapRead
          (heapWrite (getConsentStateH h a).1 (getConsentStateH h a).2 v) a
          = some s
        ∧ ∀ (opts : ConsentOptions) (method : String),
            hasConsentAt
              (heapWrite (getConsentStateH h a).1 (getConsentStateH h a).2 v)
              a opts method
              = hasConsentAt h a opts method := by
  have hra : h[a]? = some s := hread
  have ha : a < h.length := by
    by_contra hlt
    rw [List.getElem?_eq_none (by omega)] at hra
    exact Option.noConfusion hra
  have hg : getConsentStateH h a = (h ++ [s], h.length) := by
    unfold getConsentStateH
    rw [hread]
    rfl
  rw [hg]
  have hne : h.length ≠ a := by omega
  have hwrite : ∀ v : ConsentState,
      heapRead (heapWrite (h ++ [s]) h.length v) a = some s := by
    intro v
    show (((h ++ [s]).set h.length v))[a]? = some s
    rw [List.getElem?_set_ne hne]
    rw [List.getElem?_append_left ha]
    exact hra
  refine ⟨hne, ?_, fun v => ⟨hwrite v, fun opts method => ?_⟩⟩
  · show (h ++ [s])[h.length]? = some s
    exact List.getElem?_concat_length h s
  · unfold hasConsentAt
    rw [hwrite v, hread]

/-- Witness for C10 on a one-cell heap: the copy lands at address 1,
and overwriting it with an all-false state leaves the manager's cell
and its `hasConsent "behavior"` answer intact. -/
theorem getConsentState_copy_witness :
    (getConsentStateH
      [(ConsentManager.construct defaultConsentOptions 0).consentState] 0).2
      ≠ 0
    ∧ ∀ v : ConsentState,
        hasConsentAt
          (heapWrite
            (getConsentStateH
              [(ConsentManager.construct defaultConsentOptions 0).consentState]
              0).1
            (getConsentStateH
              [(ConsentManager.construct defaultConsentOptions 0).consentState]
              0).2 v)
          0 defaultConsentOptions "behavior"
          = hasConsentAt
              [(ConsentManager.construct defaultConsentOptions 0).consentState]
              0 defaultConsentOptions "behavior" :=
  ⟨(getConsentState_copy
      [(ConsentManager.construct defaultConsentOptions 0).consentState] 0
      (ConsentManager.construct defaultConsentOptions 0).consentState
      rfl).1,
   fun v => ((getConsentState_copy
      [(ConsentManager.construct defaultConsentOptions 0).consentState] 0
      (ConsentManager.construct defaultConsentOptions 0).consentState
      rfl).2.2 v).2 defaultConsentOptions "behavior"⟩

/-! ## Behavioral metrics theorems -/

/-- The speed-accumulation loop never drives the running total below
zero: each contribution is a nonnegative distance over a positive time
delta. -/
theorem mouseSpeedFold_nonneg (l : List (MouseSample × MouseSample))
    (acc : ℝ × ℕ) (h : 0 ≤ acc.1) : 0 ≤ (l.foldl mouseSpeedFold acc).1 := by
  induction l generalizing acc with
  | nil => exact h
  | cons pq rest ih =>
      rw [List.foldl_cons]
      apply ih
      unfold mouseSpeedFold
      split
      · next hdt =>
          apply add_nonneg h
          apply div_nonneg (Real.sqrt_nonneg _)
          exact_mod_cast le_of_lt hdt
      · exact h

/-- The reported average mouse speed is never negative. -/
theorem mouseAverageSpeed_nonneg (mouseData : List MouseSample) :
    0 ≤ mouseAverageSpeed mouseData := by
  unfold mouseAverageSpeed
  split
  · exact div_nonneg (mouseSpeedFold_nonneg _ _ le_rfl) (Nat.cast_nonneg _)
  · exact le_rfl

/-- C2 counterexample: a training window with mouse tracking enabled and
only 3 mouse samples yields a profile whose `mouse` field is present —
it holds the empty metrics object `{}` rather than being omitted. -/
theorem behavior_mouse_field_not_omitted :
    (processCollectedData ⟨true, true, true, PrivacyMode.balanced⟩
      threeMouseSamples [] []).mouse ≠ none
    ∧ (processCollectedData ⟨true, true, true, PrivacyMode.balanced⟩
      threeMouseSamples [] []).mouse = some ⟨none, none, none⟩ := by
  have h2 : (processCollectedData ⟨true, true, true, PrivacyMode.balanced⟩
      threeMouseSamples [] []).mouse = some ⟨none, none, none⟩ := by
    show (if true then some (calculateMouseMetrics threeMouseSamples)
      else none) = some ⟨none, none, none⟩
    rw [if_pos rfl]
    unfold calculateMouseMetrics
    rw [if_pos (by decide : threeMouseSamples.length < 10)]
  exact ⟨by rw [h2]; simp, h2⟩

/-- C2 amended: with mouse tracking enabled, fewer than 10 samples leave
the profile's `mouse` field holding the empty metrics object (present,
with every metric unset, rather than omitted); with at least 10 samples
the `mouse` field holds a populated metrics object whose `averageSpeed`
is set and non-negative. -/
theorem behavior_mouse_threshold (opts : BehaviorOptions)
    (mouseData : List MouseSample) (keyData : List KeySample)
    (touchData : List TouchSample) (htrack : opts.trackMouse = true) :
    (mouseData.length < 10 →
      (processCollectedData opts mouseData keyData touchData).mouse
        = some ⟨none, none, none⟩)
    ∧ (10 ≤ mouseData.length →
      ∃ m : MouseMetrics,
        (processCollectedData opts mouseData keyData touchData).mouse
          = some m
        ∧ ∃ v : ℝ, m.averageSpeed = some v ∧ 0 ≤ v) := by
  have hmouse : (processCollectedData opts mouseData keyData touchData).mouse
      = some (calculateMouseMetrics mouseData) := by
    show (if opts.trackMouse then some (calculateMouseMetrics mouseData)
      else none) = some (calculateMouseMetrics mouseData)
    rw [htrack]
    exact if_pos rfl
  constructor
  · intro hlen
    rw [hmouse]
    unfold calculateMouseMetrics
    rw [if_pos hlen]
  · intro hlen
    refine ⟨calculateMouseMetrics mouseData, hmouse, ?_⟩
    unfold calculateMouseMetrics
    rw [if_neg (by omega)]
    exact ⟨mouseAverageSpeed mouseData, rfl, mouseAverageSpeed_nonneg _⟩

/-- Witness for the amended C2: the 5-sample trace leaves `mouse` as the
empty metrics object; the 12-sample trace produces a set, non-negative
`averageSpeed`. -/
theorem behavior_mouse_threshold_witness :
    (processCollectedData ⟨true, true, true, PrivacyMode.balanced⟩
      fiveMouseSamples [] []).mouse = some ⟨none, none, none⟩
    ∧ ∃ m : MouseMetrics,
        (processCollectedData ⟨true, true, true, PrivacyMode.balanced⟩
          twelveMouseSamples [] []).mouse = some m
        ∧ ∃ v : ℝ, m.averageSpeed = some v ∧ 0 ≤ v :=
  ⟨(behavior_mouse_threshold ⟨true, true, true, PrivacyMode.balanced⟩
      fiveMouseSamples [] [] rfl).1 (by decide),
   (behavior_mouse_threshold ⟨true, true, true, PrivacyMode.balanced⟩
      twelveMouseSamples [] [] rfl).2 (by decide)⟩

/-! ## Entropy theorems -/

/-- The digest `"aaaa"` (a single repeated character) has Shannon
entropy zero. -/
theorem calculateStringEntropy_aaaa : calculateStringEntropy "aaaa" = 0 := by
  unfold calculateStringEntropy
  rw [show ("aaaa" : String).toList = ['a', 'a', 'a', 'a'] from rfl]
  rw [show (['a', 'a', 'a', 'a'] : List Char).toFinset = {'a'} from by decide]
  rw [Finset.sum_singleton]
  rw [show (['a', 'a', 'a', 'a'] : List Char).count 'a' = 4 from by decide]
  rw [show (['a', 'a', 'a', 'a'] : List Char).length = 4 from rfl]
  norm_num [Real.logb_one]

/-- C8 counterexample: on the digest `"aaaa"` and an attribute set whose
battery string fails `JSON.parse`, the code adds 3 bits for battery
(2 plus the 1 of the `catch` branch) while the claimed weights add only
2 (no level is present), so the computed estimate differs from the
claimed formula. -/
theorem entropy_weights_counterexample :
    estimateFingerprintEntropy "aaaa" batteryUnparsableOnly
      ≠ min 128 (calculateStringEntropy "aaaa" * 8
        + (specFeatureWeights batteryUnparsableOnly : ℝ)) := by
  unfold estimateFingerprintEntropy
  rw [calculateStringEntropy_aaaa]
  rw [show featureEntropy batteryUnparsableOnly = 3 from by
    simp [featureEntropy, batteryUnparsableOnly]
    norm_num]
  rw [show specFeatureWeights batteryUnparsableOnly = 2 from by
    simp [specFeatureWeights, batteryUnparsableOnly]]
  rw [min_eq_right (by norm_num : (0 : ℝ) * 8 + ((3 : ℚ) : ℝ) ≤ 128)]
  rw [min_eq_right (by norm_num : (0 : ℝ) * 8 + ((2 : ℚ) : ℝ) ≤ 128)]
  norm_num

/-- C8 amended: the estimate equals `stringEntropy(digest) * 8` plus the
per-feature weights — battery 2, +2 when a parsed level is present, +1
instead when the battery string is unparsable; screen 6; canvas 12;
WebGL 12; audio 6; user agent 8 — clamped to at most 128 bits. -/
theorem estimateFingerprintEntropy_formula (fp : String)
    (c : FingerprintCharacteristics) :
    estimateFingerprintEntropy fp c
      = min 128 (calculateStringEntropy fp * 8
          + (specFeatureWeightsAmended c : ℝ))
    ∧ estimateFingerprintEntropy fp c ≤ 128 := by
  have hw : featureEntropy c = specFeatureWeightsAmended c := by
    rcases c with ⟨b, s1, c1, w1, a1, u1⟩
    cases b with
    | none => simp [featureEntropy, specFeatureWeightsAmended]
    | some bv =>
        cases bv <;> simp [featureEntropy, specFeatureWeightsAmended]
  exact ⟨by unfold estimateFingerprintEntropy; rw [hw], min_le_left _ _⟩

end Trace
